import Mathlib

/-!
Shallow embedding of the quaint query-builder fragment: the `Query` tagged
union and its predicates (src/ast/query.rs), the `Delete` builder
(src/ast/delete.rs), the MySQL connector's transaction scoping
(src/connector/mysql.rs), and — modelled from the spec where the source file
is not part of the fragment — the value model, table references, condition
trees and the per-dialect visitor that lowers a `Query` to an SQL string
plus an ordered parameter sequence.
-/

namespace Quaint

/-- Modelled from the spec: the scalar value model (`Value` /
`ParameterizedValue` in the source), a closed tagged union
`Null | Integer(i64) | Text(string) | Boolean(bool) | DateTime(timestamp) | Bytes(..)`.
The `Real(f64)` tag is omitted: floating point is not shallow-embeddable and
no claim depends on it. The timestamp is embedded as an integer tick count. -/
inductive ParameterizedValue where
  | Null : ParameterizedValue
  | Integer : Int → ParameterizedValue
  | Text : String → ParameterizedValue
  | Boolean : Bool → ParameterizedValue
  | DateTime : Int → ParameterizedValue
  | Bytes : List Nat → ParameterizedValue
deriving DecidableEq, Repr

/-- Constructor function in the style of `Value::boolean(false)` from the
source doc-tests. -/
def ParameterizedValue.boolean (b : Bool) : ParameterizedValue :=
  ParameterizedValue.Boolean b

/-- Constructor function in the style of `Value::integer(1)`. -/
def ParameterizedValue.integer (i : Int) : ParameterizedValue :=
  ParameterizedValue.Integer i

/-- Modelled from the spec: a `Table` is a named reference, optionally
qualified by a schema/database name; purely descriptive. Aliasing is not
exercised by any claim and is omitted. -/
structure Table where
  name : String
  database : Option String
deriving DecidableEq, Repr

/-- Modelled from the spec: conversion of a plain string into a `Table`
(the `Into<Table>` bound of `Delete::from_table`); the name is wrapped with
no validation. -/
def Table.fromName (n : String) : Table :=
  Table.mk n none

/-- Modelled from the spec: a leaf comparison of a condition tree
(`column = value`, `column < value`, `column IN (..)`, `IS NULL`, ...),
produced by the `Comparable` capability. -/
inductive Compare where
  | equals : String → ParameterizedValue → Compare
  | not_equals : String → ParameterizedValue → Compare
  | less_than : String → ParameterizedValue → Compare
  | in_values : String → List ParameterizedValue → Compare
  | is_null : String → Compare
deriving DecidableEq, Repr

/-- Modelled from the spec: a recursive boolean expression tree over leaf
comparisons with strictly binary `AND`/`OR` and unary `NOT` combinators,
acyclic by construction (operands owned by value). -/
inductive ConditionTree where
  | single : Compare → ConditionTree
  | and : ConditionTree → ConditionTree → ConditionTree
  | or : ConditionTree → ConditionTree → ConditionTree
  | not : ConditionTree → ConditionTree
deriving DecidableEq, Repr

/-- A builder for a `DELETE` statement (src/ast/delete.rs): owns a table and
an optional condition tree. -/
structure Delete where
  table : Table
  conditions : Option ConditionTree
deriving DecidableEq, Repr

/-- Creates a new `DELETE` statement for the given table
(`Delete::from_table`); the `Into<Table>` conversion of the argument is
taken as already applied. -/
def Delete.from_table (table : Table) : Delete :=
  Delete.mk table none

/-- Adds `WHERE` conditions to the query (`Delete::so_that`): consumes the
builder, stores `Some` of the supplied tree in `conditions` and returns the
updated value. -/
def Delete.so_that (self : Delete) (conditions : ConditionTree) : Delete :=
  { self with conditions := some conditions }

/-- A list of item names in the query, skipping the anonymous values or
columns (`Delete::named_selection`); the source returns an empty vector
(RETURNING is not implemented). -/
def Delete.named_selection (_self : Delete) : List String :=
  ([] : List String)

/-- Modelled from the spec: the `Select` statement shape; it follows the
`Delete` pattern (a table plus optional conditions); the projection list is
not exercised by any claim and the visitor renders a star projection. -/
structure Select where
  table : Table
  conditions : Option ConditionTree
deriving DecidableEq, Repr

/-- Modelled from the spec: the `Insert` statement shape; a table, the
column names and one row of bound values. -/
structure Insert where
  table : Table
  columns : List String
  values : List ParameterizedValue
deriving DecidableEq, Repr

/-- Modelled from the spec: the `Update` statement shape; a table, the
`SET` assignments (column, bound value) and optional conditions. -/
structure Update where
  table : Table
  assignments : List (String × ParameterizedValue)
  conditions : Option ConditionTree
deriving DecidableEq, Repr

/-- Modelled from the spec: the `UnionAll` statement shape; the combined
selects. -/
structure UnionAll where
  selects : List Select
deriving DecidableEq, Repr

/-- A database query (src/ast/query.rs): tagged union over the statement
kinds; the `Box` indirections of the source are identity here. -/
inductive Query where
  | Select : Select → Query
  | Insert : Insert → Query
  | Update : Update → Query
  | Delete : Delete → Query
  | UnionAll : UnionAll → Query
  | Raw : String → Query
deriving DecidableEq, Repr

/-- The blanket `impl<T: ToString> From<T> for Query`: wraps
`t.to_string()` in the `Raw` variant. The `ToString` instance is passed
explicitly as a function. -/
def Query.from_to_string {α : Type} (to_string : α → String) (t : α) : Query :=
  Query.Raw (to_string t)

/-- The `impl From<Delete> for Query` (src/ast/delete.rs):
`Query::Delete(Box::new(delete))`. -/
def Query.from_delete (delete : Quaint.Delete) : Query :=
  Query.Delete delete

/-- `Query::is_select` (src/ast/query.rs). -/
def Query.is_select (self : Query) : Bool :=
  match self with
  | Query.Select _ => true
  | _ => false

/-- `Query::is_insert` (src/ast/query.rs). -/
def Query.is_insert (self : Query) : Bool :=
  match self with
  | Query.Insert _ => true
  | _ => false

/-- `Query::is_update` (src/ast/query.rs). -/
def Query.is_update (self : Query) : Bool :=
  match self with
  | Query.Update _ => true
  | _ => false

/-- `Query::is_delete` (src/ast/query.rs). -/
def Query.is_delete (self : Query) : Bool :=
  match self with
  | Query.Delete _ => true
  | _ => false

/-- `Query::is_union_all` (src/ast/query.rs). -/
def Query.is_union_all (self : Query) : Bool :=
  match self with
  | Query.UnionAll _ => true
  | _ => false

/-- Extraction of the `Delete` carried inside a `Query`, used to state that
the `From<Delete>` conversion is lossless. -/
def Query.as_delete (self : Query) : Option Quaint.Delete :=
  match self with
  | Query.Delete d => some d
  | _ => none

/-- Final state of a connector transaction after `with_transaction`. -/
inductive TxFinal where
  | committed : TxFinal
  | rolledBack : TxFinal
  | commitFailed : TxFinal
deriving DecidableEq, Repr

/-- `Mysql::with_transaction` (src/connector/mysql.rs): runs the closure on
a fresh transaction, commits when the closure returns `Ok` (propagating a
commit-time error), and otherwise returns the closure's result unchanged.
Modelled from the spec for the part outside the fragment: dropping an
uncommitted transaction of the MySQL driver rolls it back, so the `Err`
path ends rolled back; a failed commit consumes the transaction and leaves
neither a commit nor a rollback observable here (`commitFailed`). The
closure is passed as its result, and the outcome of the driver's `COMMIT`
round-trip as `commit_result`. -/
def with_transaction {E T : Type} (commit_result : Except E Unit)
    (f_result : Except E T) : Except E T × TxFinal :=
  match f_result with
  | Except.error e => (Except.error e, TxFinal.rolledBack)
  | Except.ok v =>
    match commit_result with
    | Except.ok _ => (Except.ok v, TxFinal.committed)
    | Except.error ce => (Except.error ce, TxFinal.commitFailed)

/-- Modelled from the spec: the SQL dialects of the visitor engine; the
fragment's doc-tests exercise the SQLite visitor, the connector the MySQL
one, and the spec requires an indexed-placeholder (Postgres-style) dialect. -/
inductive Dialect where
  | sqlite : Dialect
  | mysql : Dialect
  | postgres : Dialect
deriving DecidableEq, Repr

/-- The character that begins a placeholder token in the given dialect:
positional placeholders are the single character, indexed ones start with
it. -/
def phChar : Dialect → Char
  | Dialect.postgres => '$'
  | _ => '?'

/-- Decimal digit character for a value below ten. -/
def digitChar (n : Nat) : Char :=
  Char.ofNat (48 + n)

/-- Decimal digit string of a natural number, most significant digit
first; models the integer formatting used for indexed placeholders. -/
def natDigits (n : Nat) : List Char :=
  if _h : n < 10 then [digitChar n]
  else natDigits (n / 10) ++ [digitChar (n % 10)]
decreasing_by
  exact Nat.div_lt_self (by omega) (by omega)

/-- Decimal rendering of a natural number as a string. -/
def natRepr (n : Nat) : String :=
  String.mk (natDigits n)

/-- Modelled from the spec: the placeholder token a dialect emits for the
`n`-th bound parameter — positional `?` for the MySQL/SQLite style,
`$n` numbered strictly by first-emission order for the Postgres style. -/
def parameter_substitution (d : Dialect) (n : Nat) : String :=
  match d with
  | Dialect.postgres => "$" ++ natRepr n
  | _ => "?"

/-- Modelled from the spec: per-dialect identifier quoting — backtick for
the MySQL/SQLite style, double quote for the Postgres style. -/
def quote_ident (d : Dialect) (ident : String) : String :=
  match d with
  | Dialect.postgres => "\"" ++ ident ++ "\""
  | _ => "`" ++ ident ++ "`"

/-- Rendering of a possibly schema-qualified table reference. -/
def quote_table (d : Dialect) (t : Table) : String :=
  match t.database with
  | some db => quote_ident d db ++ "." ++ quote_ident d t.name
  | none => quote_ident d t.name

/-- The visitor's accumulated output: the SQL buffer written so far and the
parameter vector collected so far (the `Visitor` state of the source). -/
structure VisitorState where
  sql : String
  parameters : List ParameterizedValue
deriving DecidableEq, Repr

/-- Appends raw SQL text to the buffer (the visitor's `write`). -/
def VisitorState.write (self : VisitorState) (s : String) : VisitorState :=
  { self with sql := self.sql ++ s }

/-- Pushes a bound value onto the parameter vector (the visitor's
`add_parameter`). -/
def VisitorState.add_parameter (self : VisitorState) (v : ParameterizedValue) : VisitorState :=
  { self with parameters := self.parameters ++ [v] }

/-- Binds one value: pushes it onto the parameter vector and at the same
moment writes the dialect's placeholder token for its (1-based) position. -/
def visit_parameterized (d : Dialect) (s : VisitorState) (v : ParameterizedValue) : VisitorState :=
  let s1 := s.add_parameter v
  s1.write (parameter_substitution d s1.parameters.length)

/-- Binds a comma-separated list of values (an `IN (..)` list or a `VALUES`
row). -/
def visit_parameterized_list (d : Dialect) : VisitorState → List ParameterizedValue → VisitorState
  | s, [] => s
  | s, [v] => visit_parameterized d s v
  | s, v :: vs => visit_parameterized_list d ((visit_parameterized d s v).write (",")) vs

/-- Renders one leaf comparison. -/
def visit_compare (d : Dialect) (s : VisitorState) : Compare → VisitorState
  | Compare.equals col v => visit_parameterized d (s.write (quote_ident d col ++ " = ")) v
  | Compare.not_equals col v => visit_parameterized d (s.write (quote_ident d col ++ " <> ")) v
  | Compare.less_than col v => visit_parameterized d (s.write (quote_ident d col ++ " < ")) v
  | Compare.in_values col vs =>
    (visit_parameterized_list d (s.write (quote_ident d col ++ " IN (")) vs).write (")")
  | Compare.is_null col => s.write (quote_ident d col ++ " IS NULL")

/-- Renders a condition tree; combinators parenthesize consistently. -/
def visit_condition_tree (d : Dialect) : VisitorState → ConditionTree → VisitorState
  | s, ConditionTree.single c => visit_compare d s c
  | s, ConditionTree.and l r =>
    (visit_condition_tree d ((visit_condition_tree d (s.write ("(")) l).write (" AND ")) r).write (")")
  | s, ConditionTree.or l r =>
    (visit_condition_tree d ((visit_condition_tree d (s.write ("(")) l).write (" OR ")) r).write (")")
  | s, ConditionTree.not t =>
    (visit_condition_tree d (s.write ("(NOT ")) t).write (")")

/-- Renders the `WHERE` section: absent conditions emit nothing at all. -/
def visit_conditions (d : Dialect) (s : VisitorState) : Option ConditionTree → VisitorState
  | none => s
  | some t => visit_condition_tree d (s.write (" WHERE ")) t

/-- Renders a `DELETE` statement. -/
def visit_delete (d : Dialect) (s : VisitorState) (del : Delete) : VisitorState :=
  visit_conditions d ((s.write ("DELETE FROM ")).write (quote_table d del.table)) del.conditions

/-- Renders a `SELECT` statement (star projection, see `Select`). -/
def visit_select (d : Dialect) (s : VisitorState) (sel : Select) : VisitorState :=
  visit_conditions d ((s.write ("SELECT * FROM ")).write (quote_table d sel.table)) sel.conditions

/-- Renders a comma-separated quoted column list. -/
def visit_columns (d : Dialect) : VisitorState → List String → VisitorState
  | s, [] => s
  | s, [c] => s.write (quote_ident d c)
  | s, c :: cs => visit_columns d (s.write (quote_ident d c ++ ",")) cs

/-- Renders an `INSERT` statement. -/
def visit_insert (d : Dialect) (s : VisitorState) (ins : Insert) : VisitorState :=
  let s1 := (s.write ("INSERT INTO ")).write (quote_table d ins.table)
  let s2 := (visit_columns d (s1.write (" (")) ins.columns).write (") VALUES (")
  (visit_parameterized_list d s2 ins.values).write (")")

/-- Renders the comma-separated `SET` assignments of an `UPDATE`. -/
def visit_assignments (d : Dialect) : VisitorState → List (String × ParameterizedValue) → VisitorState
  | s, [] => s
  | s, [(c, v)] => visit_parameterized d (s.write (quote_ident d c ++ " = ")) v
  | s, (c, v) :: rest =>
    visit_assignments d ((visit_parameterized d (s.write (quote_ident d c ++ " = ")) v).write (",")) rest

/-- Renders an `UPDATE` statement. -/
def visit_update (d : Dialect) (s : VisitorState) (up : Update) : VisitorState :=
  visit_conditions d
    (visit_assignments d (((s.write ("UPDATE ")).write (quote_table d up.table)).write (" SET "))
      up.assignments)
    up.conditions

/-- Renders the selects of a `UNION ALL`, separated by the keyword. -/
def visit_selects (d : Dialect) : VisitorState → List Select → VisitorState
  | s, [] => s
  | s, [sel] => visit_select d s sel
  | s, sel :: rest => visit_selects d ((visit_select d s sel).write (" UNION ALL ")) rest

/-- Dispatches on the statement kind; a `Raw` query is emitted verbatim. -/
def visit_query (d : Dialect) (s : VisitorState) : Query → VisitorState
  | Query.Select sel => visit_select d s sel
  | Query.Insert ins => visit_insert d s ins
  | Query.Update up => visit_update d s up
  | Query.Delete del => visit_delete d s del
  | Query.UnionAll u => visit_selects d s u.selects
  | Query.Raw r => s.write (r)

/-- Modelled from the spec: `build(query) -> (sql, params)`, the sole public
entry point of a dialect's visitor — walks the AST from an empty buffer and
returns the SQL text with the parameter vector. -/
def build (d : Dialect) (q : Query) : String × List ParameterizedValue :=
  let s := visit_query d ⟨"", []⟩ q
  (s.sql, s.parameters)

/-- Bound values of a leaf comparison, in syntactic order. -/
def Compare.values : Compare → List ParameterizedValue
  | Compare.equals _ v => [v]
  | Compare.not_equals _ v => [v]
  | Compare.less_than _ v => [v]
  | Compare.in_values _ vs => vs
  | Compare.is_null _ => []

/-- Bound values of a condition tree, in left-to-right syntactic order,
with multiplicity (no deduplication). -/
def ConditionTree.values : ConditionTree → List ParameterizedValue
  | ConditionTree.single c => c.values
  | ConditionTree.and l r => l.values ++ r.values
  | ConditionTree.or l r => l.values ++ r.values
  | ConditionTree.not t => t.values

/-- Bound values of an optional condition tree. -/
def conditionsValues : Option ConditionTree → List ParameterizedValue
  | none => []
  | some t => t.values

/-- Bound values of a `DELETE` statement. -/
def Delete.values (del : Delete) : List ParameterizedValue :=
  conditionsValues del.conditions

/-- Bound values of a `SELECT` statement. -/
def Select.values (sel : Select) : List ParameterizedValue :=
  conditionsValues sel.conditions

/-- Bound values of an `UPDATE` statement: the assignment values then the
condition values. -/
def Update.values (up : Update) : List ParameterizedValue :=
  up.assignments.map Prod.snd ++ conditionsValues up.conditions

/-- Bound values of a list of selects, in order. -/
def selectsValues : List Select → List ParameterizedValue
  | [] => []
  | sel :: rest => sel.values ++ selectsValues rest

/-- Bound values of a query, in the syntactic order the visitor walks. -/
def Query.values : Query → List ParameterizedValue
  | Query.Select sel => sel.values
  | Query.Insert ins => ins.values
  | Query.Update up => up.values
  | Query.Delete del => del.values
  | Query.UnionAll u => selectsValues u.selects
  | Query.Raw _ => []

/-- Holds when a string avoids the dialect's placeholder lead character, so
that counting that character in the emitted SQL counts exactly the
placeholder tokens. -/
def strOk (d : Dialect) (x : String) : Bool :=
  x.data.all (fun c => c != phChar d)

/-- All identifiers of a comparison avoid the placeholder character. -/
def Compare.noPH (d : Dialect) : Compare → Bool
  | Compare.equals col _ => strOk d col
  | Compare.not_equals col _ => strOk d col
  | Compare.less_than col _ => strOk d col
  | Compare.in_values col _ => strOk d col
  | Compare.is_null col => strOk d col

/-- All identifiers of a condition tree avoid the placeholder character. -/
def ConditionTree.noPH (d : Dialect) : ConditionTree → Bool
  | ConditionTree.single c => c.noPH d
  | ConditionTree.and l r => l.noPH d && r.noPH d
  | ConditionTree.or l r => l.noPH d && r.noPH d
  | ConditionTree.not t => t.noPH d

/-- Identifier condition lifted to an optional condition tree. -/
def conditionsNoPH (d : Dialect) : Option ConditionTree → Bool
  | none => true
  | some t => t.noPH d

/-- The table name and its optional qualifier avoid the placeholder
character. -/
def Table.noPH (d : Dialect) (t : Table) : Bool :=
  strOk d t.name &&
    (match t.database with
     | none => true
     | some db => strOk d db)

/-- Identifier condition for a `DELETE`. -/
def Delete.noPH (d : Dialect) (del : Delete) : Bool :=
  Table.noPH d del.table && conditionsNoPH d del.conditions

/-- Identifier condition for a `SELECT`. -/
def Select.noPH (d : Dialect) (sel : Select) : Bool :=
  Table.noPH d sel.table && conditionsNoPH d sel.conditions

/-- Identifier condition for an `INSERT`. -/
def Insert.noPH (d : Dialect) (ins : Insert) : Bool :=
  Table.noPH d ins.table && ins.columns.all (strOk d)

/-- Identifier condition for an `UPDATE`. -/
def Update.noPH (d : Dialect) (up : Update) : Bool :=
  Table.noPH d up.table && up.assignments.all (fun a => strOk d a.1) &&
    conditionsNoPH d up.conditions

/-- Identifier condition for a list of selects. -/
def selectsNoPH (d : Dialect) : List Select → Bool
  | [] => true
  | sel :: rest => Select.noPH d sel && selectsNoPH d rest

/-- Identifier condition for a whole query; for a `Raw` query the verbatim
text itself must avoid the placeholder character. -/
def Query.noPH (d : Dialect) : Query → Bool
  | Query.Select sel => Select.noPH d sel
  | Query.Insert ins => Insert.noPH d ins
  | Query.Update up => Update.noPH d up
  | Query.Delete del => Delete.noPH d del
  | Query.UnionAll u => selectsNoPH d u.selects
  | Query.Raw r => strOk d r

/-- Number of occurrences of the dialect's placeholder lead character in a
string: under `noPH` this is exactly the number of placeholder tokens. -/
def countPH (d : Dialect) (s : String) : Nat :=
  s.data.count (phChar d)

theorem write_params (s : VisitorState) (str : String) :
    (VisitorState.write s str).parameters = s.parameters := rfl

theorem write_sql (s : VisitorState) (str : String) :
    (VisitorState.write s str).sql = s.sql ++ str := rfl

theorem add_parameter_sql (s : VisitorState) (v : ParameterizedValue) :
    (VisitorState.add_parameter s v).sql = s.sql := rfl

theorem countPH_append (d : Dialect) (a b : String) :
    countPH d (a ++ b) = countPH d a + countPH d b := by
  simp [countPH, String.data_append, List.count_append]

theorem strOk_countPH (d : Dialect) (x : String) (h : strOk d x = true) :
    countPH d x = 0 := by
  simp only [strOk, List.all_eq_true, bne_iff_ne, ne_eq] at h
  simp only [countPH, List.count_eq_zero]
  intro hmem
  exact h _ hmem rfl

theorem countPH_safe (d : Dialect) (x : String)
    (h : ('$' ∉ x.data) ∧ ('?' ∉ x.data)) : countPH d x = 0 := by
  cases d <;> simp only [countPH, phChar, List.count_eq_zero] <;>
    first
      | exact h.2
      | exact h.1

theorem digitChar_ok : ∀ k < 10, digitChar k ≠ '$' ∧ digitChar k ≠ '?' := by decide

theorem natDigits_ok (n : Nat) : ∀ c ∈ natDigits n, c ≠ '$' ∧ c ≠ '?' := by
  induction n using Nat.strong_induction_on with
  | _ n ih =>
    rw [natDigits]
    split
    · intro c hc
      simp only [List.mem_singleton] at hc
      subst hc
      exact digitChar_ok n (by omega)
    · intro c hc
      rcases List.mem_append.mp hc with hl | hr
      · exact ih (n / 10) (Nat.div_lt_self (by omega) (by omega)) c hl
      · simp only [List.mem_singleton] at hr
        subst hr
        exact digitChar_ok (n % 10) (Nat.mod_lt n (by omega))

theorem countPH_substitution (d : Dialect) (n : Nat) :
    countPH d (parameter_substitution d n) = 1 := by
  cases d with
  | postgres =>
    have h := natDigits_ok n
    simp only [parameter_substitution, countPH, phChar, natRepr, String.data_append]
    simp only [List.count_append]
    have h1 : List.count '$' ['$'] = 1 := by decide
    have h2 : List.count '$' (natDigits n) = 0 :=
      List.count_eq_zero.mpr (fun hm => (h _ hm).1 rfl)
    rw [h1, h2]
  | sqlite => rfl
  | mysql => rfl

theorem countPH_quote_ident (d : Dialect) (ident : String) (h : strOk d ident = true) :
    countPH d (quote_ident d ident) = 0 := by
  have h0 := strOk_countPH d ident h
  cases d <;>
    simp only [quote_ident, countPH_append, h0] <;> decide

theorem countPH_quote_table (d : Dialect) (t : Table) (h : Table.noPH d t = true) :
    countPH d (quote_table d t) = 0 := by
  simp only [Table.noPH, Bool.and_eq_true] at h
  obtain ⟨hn, hdb⟩ := h
  cases hdbm : t.database with
  | none => simp only [quote_table, hdbm, countPH_quote_ident d _ hn]
  | some db =>
    rw [hdbm] at hdb
    simp only [quote_table, hdbm, countPH_append, countPH_quote_ident d _ hn,
      countPH_quote_ident d _ hdb]
    have : countPH d (".") = 0 := countPH_safe d (".") (by decide)
    omega

theorem visit_parameterized_params (d : Dialect) (s : VisitorState) (v : ParameterizedValue) :
    (visit_parameterized d s v).parameters = s.parameters ++ [v] := rfl

theorem visit_parameterized_count (d : Dialect) (s : VisitorState) (v : ParameterizedValue) :
    countPH d (visit_parameterized d s v).sql = countPH d s.sql + 1 := by
  simp [visit_parameterized, write_sql, add_parameter_sql, countPH_append,
    countPH_substitution]

theorem visit_parameterized_list_params (d : Dialect) :
    ∀ (s : VisitorState) (vs : List ParameterizedValue),
      (visit_parameterized_list d s vs).parameters = s.parameters ++ vs := by
  intro s vs
  induction vs generalizing s with
  | nil => simp [visit_parameterized_list]
  | cons v rest ih =>
    cases rest with
    | nil => simp [visit_parameterized_list, visit_parameterized_params]
    | cons v2 rest2 =>
      simp only [visit_parameterized_list, ih, write_params, visit_parameterized_params,
        List.append_assoc, List.cons_append, List.nil_append]

theorem visit_parameterized_list_count (d : Dialect) :
    ∀ (s : VisitorState) (vs : List ParameterizedValue),
      countPH d (visit_parameterized_list d s vs).sql = countPH d s.sql + vs.length := by
  intro s vs
  have hc : countPH d (",") = 0 := countPH_safe d (",") (by decide)
  induction vs generalizing s with
  | nil => rfl
  | cons v rest ih =>
    cases rest with
    | nil => simp [visit_parameterized_list, visit_parameterized_count]
    | cons v2 rest2 =>
      simp only [visit_parameterized_list, ih, write_sql, countPH_append, hc,
        visit_parameterized_count, List.length_cons]
      omega

theorem visit_compare_params (d : Dialect) (s : VisitorState) (c : Compare) :
    (visit_compare d s c).parameters = s.parameters ++ c.values := by
  cases c <;>
    simp [visit_compare, Compare.values, visit_parameterized_params,
      visit_parameterized_list_params, write_params]

theorem visit_compare_count (d : Dialect) (s : VisitorState) (c : Compare)
    (h : Compare.noPH d c = true) :
    countPH d (visit_compare d s c).sql = countPH d s.sql + c.values.length := by
  cases c with
  | equals col v =>
    simp only [Compare.noPH] at h
    simp only [visit_compare, Compare.values, visit_parameterized_count, write_sql,
      countPH_append, countPH_quote_ident d _ h, List.length_singleton]
    have : countPH d (" = ") = 0 := countPH_safe d (" = ") (by decide)
    omega
  | not_equals col v =>
    simp only [Compare.noPH] at h
    simp only [visit_compare, Compare.values, visit_parameterized_count, write_sql,
      countPH_append, countPH_quote_ident d _ h, List.length_singleton]
    have : countPH d (" <> ") = 0 := countPH_safe d (" <> ") (by decide)
    omega
  | less_than col v =>
    simp only [Compare.noPH] at h
    simp only [visit_compare, Compare.values, visit_parameterized_count, write_sql,
      countPH_append, countPH_quote_ident d _ h, List.length_singleton]
    have : countPH d (" < ") = 0 := countPH_safe d (" < ") (by decide)
    omega
  | in_values col vs =>
    simp only [Compare.noPH] at h
    simp only [visit_compare, Compare.values, visit_parameterized_list_count, write_sql,
      countPH_append, countPH_quote_ident d _ h]
    have h1 : countPH d (" IN (") = 0 := countPH_safe d (" IN (") (by decide)
    have h2 : countPH d (")") = 0 := countPH_safe d (")") (by decide)
    omega
  | is_null col =>
    simp only [Compare.noPH] at h
    simp only [visit_compare, Compare.values, write_sql, countPH_append,
      countPH_quote_ident d _ h, List.length_nil]
    have : countPH d (" IS NULL") = 0 := countPH_safe d (" IS NULL") (by decide)
    omega

theorem visit_condition_tree_params (d : Dialect) :
    ∀ (s : VisitorState) (t : ConditionTree),
      (visit_condition_tree d s t).parameters = s.parameters ++ t.values := by
  intro s t
  induction t generalizing s with
  | single c => simp [visit_condition_tree, ConditionTree.values, visit_compare_params]
  | and l r ihl ihr =>
    simp [visit_condition_tree, ConditionTree.values, write_params, ihl, ihr,
      List.append_assoc]
  | or l r ihl ihr =>
    simp [visit_condition_tree, ConditionTree.values, write_params, ihl, ihr,
      List.append_assoc]
  | not t iht =>
    simp [visit_condition_tree, ConditionTree.values, write_params, iht]

theorem visit_condition_tree_count (d : Dialect) :
    ∀ (s : VisitorState) (t : ConditionTree), ConditionTree.noPH d t = true →
      countPH d (visit_condition_tree d s t).sql = countPH d s.sql + t.values.length := by
  intro s t h
  have hp : countPH d ("(") = 0 := countPH_safe d ("(") (by decide)
  have hq : countPH d (")") = 0 := countPH_safe d (")") (by decide)
  have ha : countPH d (" AND ") = 0 := countPH_safe d (" AND ") (by decide)
  have ho : countPH d (" OR ") = 0 := countPH_safe d (" OR ") (by decide)
  have hn : countPH d ("(NOT ") = 0 := countPH_safe d ("(NOT ") (by decide)
  induction t generalizing s with
  | single c =>
    simp only [ConditionTree.noPH] at h
    simp only [visit_condition_tree, ConditionTree.values, visit_compare_count d s c h]
  | and l r ihl ihr =>
    simp only [ConditionTree.noPH, Bool.and_eq_true] at h
    simp only [visit_condition_tree, ConditionTree.values, write_sql, countPH_append,
      ihr _ h.2, ihl _ h.1, hp, hq, ha, List.length_append]
    omega
  | or l r ihl ihr =>
    simp only [ConditionTree.noPH, Bool.and_eq_true] at h
    simp only [visit_condition_tree, ConditionTree.values, write_sql, countPH_append,
      ihr _ h.2, ihl _ h.1, hp, hq, ho, List.length_append]
    omega
  | not t iht =>
    simp only [ConditionTree.noPH] at h
    simp only [visit_condition_tree, ConditionTree.values, write_sql, countPH_append,
      iht _ h, hn, hq]
    omega

theorem visit_conditions_params (d : Dialect) (s : VisitorState) (oc : Option ConditionTree) :
    (visit_conditions d s oc).parameters = s.parameters ++ conditionsValues oc := by
  cases oc <;>
    simp [visit_conditions, conditionsValues, write_params, visit_condition_tree_params]

theorem visit_conditions_count (d : Dialect) (s : VisitorState) (oc : Option ConditionTree)
    (h : conditionsNoPH d oc = true) :
    countPH d (visit_conditions d s oc).sql = countPH d s.sql + (conditionsValues oc).length := by
  cases oc with
  | none => simp [visit_conditions, conditionsValues]
  | some t =>
    simp only [conditionsNoPH] at h
    simp only [visit_conditions, conditionsValues, visit_condition_tree_count d _ t h,
      write_sql, countPH_append]
    have : countPH d (" WHERE ") = 0 := countPH_safe d (" WHERE ") (by decide)
    omega

theorem visit_delete_params (d : Dialect) (s : VisitorState) (del : Delete) :
    (visit_delete d s del).parameters = s.parameters ++ del.values := by
  simp [visit_delete, visit_conditions_params, write_params, Delete.values]

theorem visit_delete_count (d : Dialect) (s : VisitorState) (del : Delete)
    (h : Delete.noPH d del = true) :
    countPH d (visit_delete d s del).sql = countPH d s.sql + del.values.length := by
  simp only [Delete.noPH, Bool.and_eq_true] at h
  simp only [visit_delete, visit_conditions_count d _ _ h.2, write_sql, countPH_append,
    countPH_quote_table d _ h.1, Delete.values]
  have : countPH d ("DELETE FROM ") = 0 := countPH_safe d ("DELETE FROM ") (by decide)
  omega

theorem visit_select_params (d : Dialect) (s : VisitorState) (sel : Select) :
    (visit_select d s sel).parameters = s.parameters ++ sel.values := by
  simp [visit_select, visit_conditions_params, write_params, Select.values]

theorem visit_select_count (d : Dialect) (s : VisitorState) (sel : Select)
    (h : Select.noPH d sel = true) :
    countPH d (visit_select d s sel).sql = countPH d s.sql + sel.values.length := by
  simp only [Select.noPH, Bool.and_eq_true] at h
  simp only [visit_select, visit_conditions_count d _ _ h.2, write_sql, countPH_append,
    countPH_quote_table d _ h.1, Select.values]
  have : countPH d ("SELECT * FROM ") = 0 := countPH_safe d ("SELECT * FROM ") (by decide)
  omega

theorem visit_columns_params (d : Dialect) :
    ∀ (s : VisitorState) (cols : List String),
      (visit_columns d s cols).parameters = s.parameters := by
  intro s cols
  induction cols generalizing s with
  | nil => rfl
  | cons c rest ih =>
    cases rest with
    | nil => simp [visit_columns, write_params]
    | cons c2 rest2 => simp only [visit_columns, ih, write_params]

theorem visit_columns_count (d : Dialect) :
    ∀ (s : VisitorState) (cols : List String), cols.all (strOk d) = true →
      countPH d (visit_columns d s cols).sql = countPH d s.sql := by
  intro s cols h
  have hc : countPH d (",") = 0 := countPH_safe d (",") (by decide)
  induction cols generalizing s with
  | nil => rfl
  | cons c rest ih =>
    simp only [List.all_cons, Bool.and_eq_true] at h
    cases rest with
    | nil =>
      simp only [visit_columns, write_sql, countPH_append, countPH_quote_ident d _ h.1]
      omega
    | cons c2 rest2 =>
      simp only [visit_columns, ih _ h.2, write_sql, countPH_append,
        countPH_quote_ident d _ h.1, hc]
      omega

theorem visit_insert_params (d : Dialect) (s : VisitorState) (ins : Insert) :
    (visit_insert d s ins).parameters = s.parameters ++ ins.values := by
  simp [visit_insert, visit_parameterized_list_params, visit_columns_params, write_params]

theorem visit_insert_count (d : Dialect) (s : VisitorState) (ins : Insert)
    (h : Insert.noPH d ins = true) :
    countPH d (visit_insert d s ins).sql = countPH d s.sql + ins.values.length := by
  simp only [Insert.noPH, Bool.and_eq_true] at h
  simp only [visit_insert, visit_parameterized_list_count, write_sql, countPH_append,
    visit_columns_count d _ _ h.2, countPH_quote_table d _ h.1]
  have h1 : countPH d ("INSERT INTO ") = 0 := countPH_safe d ("INSERT INTO ") (by decide)
  have h2 : countPH d (" (") = 0 := countPH_safe d (" (") (by decide)
  have h3 : countPH d (") VALUES (") = 0 := countPH_safe d (") VALUES (") (by decide)
  have h4 : countPH d (")") = 0 := countPH_safe d (")") (by decide)
  omega

theorem visit_assignments_params (d : Dialect) :
    ∀ (s : VisitorState) (asgs : List (String × ParameterizedValue)),
      (visit_assignments d s asgs).parameters = s.parameters ++ asgs.map Prod.snd := by
  intro s asgs
  induction asgs generalizing s with
  | nil => simp [visit_assignments]
  | cons a rest ih =>
    obtain ⟨c, v⟩ := a
    cases rest with
    | nil =>
      simp [visit_assignments, visit_parameterized_params, write_params]
    | cons a2 rest2 =>
      simp only [visit_assignments, ih, write_params, visit_parameterized_params,
        List.map_cons, List.append_assoc, List.cons_append, List.nil_append]

theorem visit_assignments_count (d : Dialect) :
    ∀ (s : VisitorState) (asgs : List (String × ParameterizedValue)),
      asgs.all (fun a => strOk d a.1) = true →
      countPH d (visit_assignments d s asgs).sql = countPH d s.sql + asgs.length := by
  intro s asgs h
  have hc : countPH d (",") = 0 := countPH_safe d (",") (by decide)
  have he : countPH d (" = ") = 0 := countPH_safe d (" = ") (by decide)
  induction asgs generalizing s with
  | nil => rfl
  | cons a rest ih =>
    simp only [List.all_cons, Bool.and_eq_true] at h
    obtain ⟨c, v⟩ := a
    cases rest with
    | nil =>
      simp only [visit_assignments, visit_parameterized_count, write_sql, countPH_append,
        countPH_quote_ident d _ h.1, he, List.length_singleton]
      try omega
    | cons a2 rest2 =>
      simp only [visit_assignments, ih _ h.2, write_sql, countPH_append,
        visit_parameterized_count, countPH_quote_ident d _ h.1, he, hc, List.length_cons]
      omega

theorem visit_update_params (d : Dialect) (s : VisitorState) (up : Update) :
    (visit_update d s up).parameters = s.parameters ++ up.values := by
  simp [visit_update, visit_conditions_params, visit_assignments_params, write_params,
    Update.values, List.append_assoc]

theorem visit_update_count (d : Dialect) (s : VisitorState) (up : Update)
    (h : Update.noPH d up = true) :
    countPH d (visit_update d s up).sql = countPH d s.sql + up.values.length := by
  simp only [Update.noPH, Bool.and_eq_true] at h
  simp only [visit_update, visit_conditions_count d _ _ h.2, write_sql, countPH_append,
    visit_assignments_count d _ _ h.1.2, countPH_quote_table d _ h.1.1, Update.values,
    List.length_append, List.length_map]
  have h1 : countPH d ("UPDATE ") = 0 := countPH_safe d ("UPDATE ") (by decide)
  have h2 : countPH d (" SET ") = 0 := countPH_safe d (" SET ") (by decide)
  omega

theorem visit_selects_params (d : Dialect) :
    ∀ (s : VisitorState) (sels : List Select),
      (visit_selects d s sels).parameters = s.parameters ++ selectsValues sels := by
  intro s sels
  induction sels generalizing s with
  | nil => simp [visit_selects, selectsValues]
  | cons sel rest ih =>
    cases rest with
    | nil => simp [visit_selects, selectsValues, visit_select_params]
    | cons sel2 rest2 =>
      simp only [visit_selects, ih, write_params, visit_select_params, selectsValues,
        List.append_assoc]

theorem visit_selects_count (d : Dialect) :
    ∀ (s : VisitorState) (sels : List Select), selectsNoPH d sels = true →
      countPH d (visit_selects d s sels).sql = countPH d s.sql + (selectsValues sels).length := by
  intro s sels h
  have hu : countPH d (" UNION ALL ") = 0 := countPH_safe d (" UNION ALL ") (by decide)
  induction sels generalizing s with
  | nil => simp [visit_selects, selectsValues]
  | cons sel rest ih =>
    simp only [selectsNoPH, Bool.and_eq_true] at h
    cases rest with
    | nil =>
      simp only [visit_selects, visit_select_count d _ _ h.1, selectsValues,
        List.append_nil]
    | cons sel2 rest2 =>
      simp only [visit_selects, ih _ h.2, write_sql, countPH_append,
        visit_select_count d _ _ h.1, hu, selectsValues, List.length_append]
      omega

theorem visit_query_params (d : Dialect) (s : VisitorState) (q : Query) :
    (visit_query d s q).parameters = s.parameters ++ q.values := by
  cases q with
  | Select sel => simp [visit_query, Query.values, visit_select_params]
  | Insert ins => simp [visit_query, Query.values, visit_insert_params]
  | Update up => simp [visit_query, Query.values, visit_update_params]
  | Delete del => simp [visit_query, Query.values, visit_delete_params]
  | UnionAll u => simp [visit_query, Query.values, visit_selects_params]
  | Raw r => simp [visit_query, Query.values, write_params]

theorem visit_query_count (d : Dialect) (s : VisitorState) (q : Query)
    (h : Query.noPH d q = true) :
    countPH d (visit_query d s q).sql = countPH d s.sql + q.values.length := by
  cases q with
  | Select sel =>
    simp only [Query.noPH] at h
    simp only [visit_query, Query.values, visit_select_count d s _ h]
  | Insert ins =>
    simp only [Query.noPH] at h
    simp only [visit_query, Query.values, visit_insert_count d s _ h]
  | Update up =>
    simp only [Query.noPH] at h
    simp only [visit_query, Query.values, visit_update_count d s _ h]
  | Delete del =>
    simp only [Query.noPH] at h
    simp only [visit_query, Query.values, visit_delete_count d s _ h]
  | UnionAll u =>
    simp only [Query.noPH] at h
    simp only [visit_query, Query.values, visit_selects_count d s _ h]
  | Raw r =>
    simp only [Query.noPH] at h
    simp only [visit_query, Query.values, write_sql, countPH_append, strOk_countPH d r h,
      List.length_nil]

theorem foldl_so_that_table (dl : Delete) (cs : List ConditionTree) :
    (List.foldl Delete.so_that dl cs).table = dl.table := by
  induction cs generalizing dl with
  | nil => rfl
  | cons c rest ih => simp only [List.foldl_cons, ih, Delete.so_that]

theorem foldl_so_that_conditions (dl : Delete) (cs : List ConditionTree) :
    (List.foldl Delete.so_that dl cs).conditions =
      (match cs.getLast? with
       | none => dl.conditions
       | some c => some c) := by
  induction cs generalizing dl with
  | nil => rfl
  | cons c rest ih =>
    cases rest with
    | nil => simp [List.foldl_cons, Delete.so_that]
    | cons c2 rest2 =>
      rw [List.foldl_cons, ih, List.getLast?_cons_cons]
      cases hgl : (c2 :: rest2).getLast? with
      | none =>
        have hs : ((c2 :: rest2).getLast?).isSome = true :=
          List.getLast?_isSome.mpr (List.cons_ne_nil c2 rest2)
        rw [hgl] at hs
        cases hs
      | some x => rfl

/-- C1: placeholder/parameter alignment. For every dialect and every query
whose identifiers (and raw text) avoid the dialect's placeholder lead
character, `build` returns the bound values of the AST as its parameter
sequence — in first-emission (left-to-right syntactic) order and with
multiplicity, so a value bound twice yields two entries — and the emitted
SQL contains exactly as many placeholder tokens as there are parameters
(each placeholder is written at the very moment its value is appended, see
`visit_parameterized`). -/
theorem build_placeholder_parameter_alignment (d : Dialect) (q : Query)
    (h : Query.noPH d q = true) :
    (build d q).2 = q.values ∧
    countPH d (build d q).1 = (build d q).2.length := by
  have hp := visit_query_params d ⟨"", []⟩ q
  have hc := visit_query_count d ⟨"", []⟩ q h
  have h2 : (build d q).2 = q.values := by
    show (visit_query d ⟨"", []⟩ q).parameters = q.values
    rw [hp]
    rfl
  refine ⟨h2, ?_⟩
  show countPH d (visit_query d ⟨"", []⟩ q).sql = (build d q).2.length
  rw [hc, h2]
  have h0 : countPH d (VisitorState.mk ("") ([])).sql = 0 := rfl
  rw [h0]
  omega

/-- Witness for C1: a SQLite-dialect `DELETE` whose condition tree binds the
same value twice; both the hypothesis and the conclusion evaluate on it. -/
theorem build_placeholder_parameter_alignment_witness :
    Query.noPH Dialect.sqlite
        (Query.Delete (Delete.mk (Table.mk ("users") none)
          (some (ConditionTree.and
            (ConditionTree.single (Compare.equals ("bar") (ParameterizedValue.Boolean false)))
            (ConditionTree.single (Compare.equals ("baz") (ParameterizedValue.Boolean false))))))) = true ∧
    ((build Dialect.sqlite
        (Query.Delete (Delete.mk (Table.mk ("users") none)
          (some (ConditionTree.and
            (ConditionTree.single (Compare.equals ("bar") (ParameterizedValue.Boolean false)))
            (ConditionTree.single (Compare.equals ("baz") (ParameterizedValue.Boolean false)))))))).2 =
      Query.values
        (Query.Delete (Delete.mk (Table.mk ("users") none)
          (some (ConditionTree.and
            (ConditionTree.single (Compare.equals ("bar") (ParameterizedValue.Boolean false)))
            (ConditionTree.single (Compare.equals ("baz") (ParameterizedValue.Boolean false))))))) ∧
      countPH Dialect.sqlite
          (build Dialect.sqlite
            (Query.Delete (Delete.mk (Table.mk ("users") none)
              (some (ConditionTree.and
                (ConditionTree.single (Compare.equals ("bar") (ParameterizedValue.Boolean false)))
                (ConditionTree.single (Compare.equals ("baz") (ParameterizedValue.Boolean false)))))))).1 =
        (build Dialect.sqlite
          (Query.Delete (Delete.mk (Table.mk ("users") none)
            (some (ConditionTree.and
              (ConditionTree.single (Compare.equals ("bar") (ParameterizedValue.Boolean false)))
              (ConditionTree.single (Compare.equals ("baz") (ParameterizedValue.Boolean false)))))))).2.length) :=
  ⟨by decide, build_placeholder_parameter_alignment Dialect.sqlite _ (by decide)⟩

/-- C2: for every `Query` constructed from each of the five statement
kinds, exactly one of the five tag predicates returns `true`; the
predicates are pure functions of the query value (they take it unchanged
and only inspect the tag). -/
theorem query_tag_predicates_exactly_one :
    (∀ sel : Select, [(Query.Select sel).is_select, (Query.Select sel).is_insert,
      (Query.Select sel).is_update, (Query.Select sel).is_delete,
      (Query.Select sel).is_union_all].count true = 1) ∧
    (∀ ins : Insert, [(Query.Insert ins).is_select, (Query.Insert ins).is_insert,
      (Query.Insert ins).is_update, (Query.Insert ins).is_delete,
      (Query.Insert ins).is_union_all].count true = 1) ∧
    (∀ up : Update, [(Query.Update up).is_select, (Query.Update up).is_insert,
      (Query.Update up).is_update, (Query.Update up).is_delete,
      (Query.Update up).is_union_all].count true = 1) ∧
    (∀ del : Delete, [(Query.Delete del).is_select, (Query.Delete del).is_insert,
      (Query.Delete del).is_update, (Query.Delete del).is_delete,
      (Query.Delete del).is_union_all].count true = 1) ∧
    (∀ u : UnionAll, [(Query.UnionAll u).is_select, (Query.UnionAll u).is_insert,
      (Query.UnionAll u).is_update, (Query.UnionAll u).is_delete,
      (Query.UnionAll u).is_union_all].count true = 1) :=
  ⟨fun _ => rfl, fun _ => rfl, fun _ => rfl, fun _ => rfl, fun _ => rfl⟩

/-- C3: the conversion of a `Delete` into the `Query` tagged union is total
(a plain function, no fallible step) and lossless: the result is the
`Delete` variant, satisfies `is_delete`, and carries the original value —
its table and conditions included — unchanged. -/
theorem from_delete_total_lossless (del : Delete) :
    Query.from_delete del = Query.Delete del ∧
    (Query.from_delete del).is_delete = true ∧
    Query.as_delete (Query.from_delete del) = some del :=
  ⟨rfl, rfl, rfl⟩

/-- C4 counterexample: the claim that every `Delete` built by `from_table`
has a non-empty table name fails at the explicit input of an empty table
name — `from_table` performs no validation. -/
theorem delete_table_nonempty_counterexample :
    ¬ (∀ t : Table, (Delete.from_table t).table.name ≠ "") :=
  fun h => h (Table.mk ("") none) rfl

/-- C4 (amended): every `Delete` built by `from_table` and refined by any
sequence of `so_that` calls keeps the supplied table unchanged — hence a
non-empty name whenever the supplied name is non-empty — `from_table`
leaves `conditions` at `None`, and after the sequence `conditions` is
`Some` of the last supplied tree (`None` exactly when no `so_that` was
applied). -/
theorem delete_builder_invariants (t : Table) (cs : List ConditionTree)
    (h : t.name ≠ "") :
    (List.foldl Delete.so_that (Delete.from_table t) cs).table = t ∧
    (List.foldl Delete.so_that (Delete.from_table t) cs).table.name ≠ "" ∧
    (Delete.from_table t).conditions = none ∧
    (List.foldl Delete.so_that (Delete.from_table t) cs).conditions = cs.getLast? := by
  have ht := foldl_so_that_table (Delete.from_table t) cs
  have hc := foldl_so_that_conditions (Delete.from_table t) cs
  refine ⟨ht, ?_, rfl, ?_⟩
  · rw [ht]
    exact h
  · rw [hc]
    cases cs.getLast? <;> rfl

/-- Witness for C4: the invariants evaluated for table `users` refined by
one `so_that`. -/
theorem delete_builder_invariants_witness :
    (Table.mk ("users") none).name ≠ "" ∧
    ((List.foldl Delete.so_that (Delete.from_table (Table.mk ("users") none))
        [ConditionTree.single (Compare.is_null ("bar"))]).table = Table.mk ("users") none ∧
      (List.foldl Delete.so_that (Delete.from_table (Table.mk ("users") none))
        [ConditionTree.single (Compare.is_null ("bar"))]).table.name ≠ "" ∧
      (Delete.from_table (Table.mk ("users") none)).conditions = none ∧
      (List.foldl Delete.so_that (Delete.from_table (Table.mk ("users") none))
        [ConditionTree.single (Compare.is_null ("bar"))]).conditions =
        [ConditionTree.single (Compare.is_null ("bar"))].getLast?) :=
  ⟨by decide, delete_builder_invariants (Table.mk ("users") none)
    [ConditionTree.single (Compare.is_null ("bar"))] (by decide)⟩

/-- C5: `so_that` consumes the builder and returns a new owned value whose
`conditions` is `Some` of the supplied tree while `table` — the only other
field of the builder — is unchanged. -/
theorem so_that_sets_conditions_frame (del : Delete) (c : ConditionTree) :
    (del.so_that c).conditions = some c ∧
    (del.so_that c).table = del.table ∧
    del.so_that c = Delete.mk del.table (some c) :=
  ⟨rfl, rfl, rfl⟩

/-- C6: `with_transaction` commits exactly when the closure returns `Ok`
(and the driver's commit round-trip succeeds), rolls the transaction back
whenever the closure returns `Err` — in which case it is never committed —
and returns the closure's result unchanged apart from a commit-time
error. -/
theorem with_transaction_commit_on_ok_rollback_on_err {E T : Type}
    (cr : Except E Unit) (fr : Except E T) :
    (∀ e, fr = Except.error e →
      with_transaction cr fr = (Except.error e, TxFinal.rolledBack)) ∧
    (∀ v, fr = Except.ok v → cr = Except.ok () →
      with_transaction cr fr = (Except.ok v, TxFinal.committed)) ∧
    ((with_transaction cr fr).2 = TxFinal.committed → ∃ v, fr = Except.ok v) := by
  refine ⟨?_, ?_, ?_⟩
  · intro e he
    subst he
    rfl
  · intro v hv hc
    subst hv
    subst hc
    rfl
  · intro h2
    cases fr with
    | error e => simp [with_transaction] at h2
    | ok v => exact ⟨v, rfl⟩

/-- Witness for C6: a failing closure is rolled back with its error
returned unchanged. -/
theorem with_transaction_witness :
    with_transaction (Except.ok () : Except String Unit)
        (Except.error ("boom") : Except String Unit) =
      (Except.error ("boom"), TxFinal.rolledBack) :=
  (with_transaction_commit_on_ok_rollback_on_err (Except.ok ())
    (Except.error ("boom"))).1 ("boom") rfl

/-- C7: query generation is deterministic — `build` is a pure function of
the dialect and the AST, so two equal copies of a query yield byte-identical
SQL and equal parameter sequences. -/
theorem build_deterministic (d : Dialect) (q1 q2 : Query) (h : q1 = q2) :
    build d q1 = build d q2 := by
  rw [h]

/-- Witness for C7: determinism evaluated on a concrete query. -/
theorem build_deterministic_witness :
    build Dialect.sqlite (Query.Raw ("SELECT 1")) =
      build Dialect.sqlite (Query.Raw ("SELECT 1")) :=
  build_deterministic Dialect.sqlite (Query.Raw ("SELECT 1"))
    (Query.Raw ("SELECT 1")) rfl

/-- C8: a `DELETE` whose `conditions` field is `None` renders as exactly
the statement keyword and the table reference — no `WHERE` clause at all,
not an empty or always-true one — with an empty parameter sequence, in
every dialect. -/
theorem delete_without_conditions_no_where (d : Dialect) (del : Delete)
    (h : del.conditions = none) :
    build d (Query.Delete del) =
      ("DELETE FROM " ++ quote_table d del.table, ([] : List ParameterizedValue)) := by
  obtain ⟨t, oc⟩ := del
  simp only at h
  subst h
  rfl

/-- Witness for C8: `Delete::from_table("users")` builds with no `WHERE`
and no parameters. -/
theorem delete_without_conditions_no_where_witness :
    (Delete.from_table (Table.fromName ("users"))).conditions = none ∧
    build Dialect.sqlite (Query.Delete (Delete.from_table (Table.fromName ("users")))) =
      ("DELETE FROM " ++
        quote_table Dialect.sqlite (Delete.from_table (Table.fromName ("users"))).table,
        ([] : List ParameterizedValue)) :=
  ⟨rfl, delete_without_conditions_no_where Dialect.sqlite
    (Delete.from_table (Table.fromName ("users"))) rfl⟩

/-- C9: `named_selection` returns the empty list for every `Delete`,
regardless of its table or conditions (the RETURNING-style selection is
stubbed). -/
theorem named_selection_returns_nothing (del : Delete) :
    del.named_selection = ([] : List String) :=
  rfl

/-- C10: the blanket `From<T: ToString>` conversion produces the `Raw`
variant carrying exactly the rendered string, and on the result all five
statement-kind predicates return `false`. -/
theorem from_to_string_raw {α : Type} (to_string : α → String) (t : α) :
    Query.from_to_string to_string t = Query.Raw (to_string t) ∧
    (Query.from_to_string to_string t).is_select = false ∧
    (Query.from_to_string to_string t).is_insert = false ∧
    (Query.from_to_string to_string t).is_update = false ∧
    (Query.from_to_string to_string t).is_delete = false ∧
    (Query.from_to_string to_string t).is_union_all = false :=
  ⟨rfl, rfl, rfl, rfl, rfl, rfl⟩

end Quaint
